import Mathlib

/-!
Verification of the swaps quote controller (quote fetching, ranking, savings and
polling) against its natural-language specification.  The TypeScript sources are
shallowly embedded: BigNumber exact-decimal arithmetic is modelled by `ℚ`,
JavaScript objects used as string-keyed maps by association lists, thrown
exceptions by `Except`, and the mutable controller state by explicit record
passing.  The embedding follows the newest controller variant (the one the
claims cite) together with the utility module `SwapsUtil.ts`.
-/

namespace Swaps

/-- Sentinel address the swaps API uses for the native ETH asset. -/
def ETH_SWAPS_TOKEN_ADDRESS : String := "0x0000000000000000000000000000000000000000"

/-- Gas ceiling constant, higher than any observed aggregator gas cost. -/
def MAX_GAS_LIMIT : ℚ := 2500000

/-- Default ERC-20 approve gas, the numeric value of the hex constant 0x1d4c0. -/
def DEFAULT_ERC20_APPROVE_GAS : ℚ := 120000

/-- The typed failure kinds of the swaps module (the SwapsError string enum). -/
inductive SwapsError where
  | QUOTES_EXPIRED_ERROR
  | SWAP_FAILED_ERROR
  | ERROR_FETCHING_QUOTES
  | QUOTES_NOT_AVAILABLE_ERROR
  | OFFLINE_FOR_MAINTENANCE
  | SWAPS_FETCH_ORDER_CONFLICT
deriving DecidableEq, Repr

/-- String value of each SwapsError enum member. -/
def SwapsError.msg : SwapsError → String
  | .QUOTES_EXPIRED_ERROR => "quotes-expired"
  | .SWAP_FAILED_ERROR => "swap-failed-error"
  | .ERROR_FETCHING_QUOTES => "error-fetching-quotes"
  | .QUOTES_NOT_AVAILABLE_ERROR => "quotes-not-available"
  | .OFFLINE_FOR_MAINTENANCE => "offline-for-maintenance"
  | .SWAPS_FETCH_ORDER_CONFLICT => "swaps-fetch-order-conflict"

/-- Values thrown by JavaScript code: an Error object wrapping a message (what
`throw new Error(...)` produces), a bare string, or anything else. -/
inductive JsVal where
  | errorObj (msg : String)
  | strVal (s : String)
  | other
deriving DecidableEq, Repr

/-- Inverse of `SwapsError.msg`, used to model the membership test
`Object.values(SwapsError).includes(e)`. -/
def decodeSwapsError (s : String) : Option SwapsError :=
  if s = "quotes-expired" then some .QUOTES_EXPIRED_ERROR
  else if s = "swap-failed-error" then some .SWAP_FAILED_ERROR
  else if s = "error-fetching-quotes" then some .ERROR_FETCHING_QUOTES
  else if s = "quotes-not-available" then some .QUOTES_NOT_AVAILABLE_ERROR
  else if s = "offline-for-maintenance" then some .OFFLINE_FOR_MAINTENANCE
  else if s = "swaps-fetch-order-conflict" then some .SWAPS_FETCH_ORDER_CONFLICT
  else none

/-- The catch handler of fetchAndSetQuotes classifies a thrown value:
`Object.values(SwapsError).includes(e) ? e : SwapsError.ERROR_FETCHING_QUOTES`.
Only a bare enum string passes the includes test; an Error object does not
compare equal to any enum string. -/
def caughtSwapsError (e : JsVal) : SwapsError :=
  match e with
  | .strVal s => (decodeSwapsError s).getD .ERROR_FETCHING_QUOTES
  | _ => .ERROR_FETCHING_QUOTES

/-- Model of addHexPrefix from ethereumjs-util. -/
def add0x (s : String) : String := if s.startsWith "0x" then s else "0x" ++ s

/-- The NORMALIZERS table applies a normalizer only to truthy (non-empty)
string fields; empty fields are left out (modelled as staying empty). -/
def normStr (f : String → String) (s : String) : String := if s = "" then "" else f s

/-- Transaction skeleton of a trade; the value field carries the numeric
amount (in the source a hex string round-tripped through BNToHex). -/
structure TradeTx where
  toAddr : String
  fromAddr : String
  data : String
  value : ℚ
  gas : Option ℚ
deriving DecidableEq, Repr

/-- ERC-20 approval transaction skeleton attached to a quote. -/
structure ApprovalTx where
  data : String
  toAddr : String
  fromAddr : String
  gas : Option ℚ
deriving DecidableEq, Repr

/-- constructTxParams applied to a trade in fetchTradesInfo: to/from are
hex-prefixed and lower-cased, data hex-prefixed, amount = trade value,
gas = the quote's maxGas. -/
def constructTrade (t : TradeTx) (maxGas : ℚ) : TradeTx :=
  { toAddr := normStr (fun s => (add0x s).toLower) t.toAddr
    fromAddr := normStr (fun s => (add0x s).toLower) t.fromAddr
    data := normStr add0x t.data
    value := t.value
    gas := some maxGas }

/-- constructTxParams applied to an approvalNeeded object in fetchTradesInfo. -/
def constructApproval (a : ApprovalTx) : ApprovalTx :=
  { data := normStr add0x a.data
    toAddr := normStr (fun s => (add0x s).toLower) a.toAddr
    fromAddr := normStr (fun s => (add0x s).toLower) a.fromAddr
    gas := a.gas }

/-- Token descriptor used in the fetch metadata. -/
structure SwapsToken where
  address : String
  symbol : String
  decimals : ℕ
deriving DecidableEq, Repr

/-- Metadata accompanying a fetch request. -/
structure APIFetchQuotesMetadata where
  sourceTokenInfo : SwapsToken
  destinationTokenInfo : SwapsToken
  accountBalance : String
  destinationTokenConversionRate : Option ℚ
deriving DecidableEq, Repr

/-- Parameters of a fetch request. -/
structure APIFetchQuotesParams where
  slippage : ℚ
  sourceToken : String
  sourceAmount : ℚ
  destinationToken : String
  walletAddress : String
deriving DecidableEq, Repr

/-- Savings breakdown of the selected best quote. -/
structure QuoteSavings where
  total : ℚ
  performance : ℚ
  fee : ℚ
  medianMetaMaskFee : ℚ
deriving DecidableEq, Repr

/-- Raw quote as it arrives from the trades API, before filtering: the trade
may be missing and an error may be set. -/
structure RawQuote where
  trade : Option TradeTx
  approvalNeeded : Option ApprovalTx
  sourceAmount : ℚ
  destinationAmount : ℚ
  error : Option String
  sourceToken : String
  destinationToken : String
  maxGas : ℚ
  averageGas : ℚ
  estimatedRefund : ℚ
  fetchTime : ℕ
  aggregator : String
  aggType : String
  fee : ℚ
  gasMultiplier : ℚ
deriving DecidableEq, Repr

/-- A surviving quote after fetchTradesInfo filtering and normalization. -/
structure Quote where
  trade : TradeTx
  approvalNeeded : Option ApprovalTx
  sourceAmount : ℚ
  destinationAmount : ℚ
  sourceToken : String
  destinationToken : String
  maxGas : ℚ
  averageGas : ℚ
  estimatedRefund : ℚ
  fetchTime : ℕ
  aggregator : String
  aggType : String
  fee : ℚ
  gasMultiplier : ℚ
  slippage : ℚ
  savings : Option QuoteSavings
  gasEstimate : Option ℚ
  gasEstimateWithRefund : Option ℚ
deriving DecidableEq, Repr

/-- JavaScript object update by spread: an existing key keeps its position and
gets the new value, a new key is appended. -/
def objSet {β : Type} (m : List (String × β)) (k : String) (v : β) : List (String × β) :=
  if m.any (fun p => p.1 = k) then m.map (fun p => if p.1 = k then (k, v) else p)
  else m ++ [(k, v)]

/-- Lookup in a string-keyed object modelled as an association list. -/
def mapLookup {β : Type} (m : List (String × β)) (k : String) : Option β :=
  (m.find? (fun p => p.1 = k)).map (·.2)

/-- The filtering reduce of fetchTradesInfo: keep quotes with a trade and no
error, normalize the trade and approval transactions, attach the slippage,
and key the result by aggregator id. -/
def fetchTradesInfo (slippage : ℚ) (tradesResponse : List RawQuote) :
    List (String × Quote) :=
  tradesResponse.foldl
    (fun aggIdTradeMap q =>
      match q.trade, q.error with
      | some t, none =>
          objSet aggIdTradeMap q.aggregator
            { trade := constructTrade t q.maxGas
              approvalNeeded := q.approvalNeeded.map constructApproval
              sourceAmount := q.sourceAmount
              destinationAmount := q.destinationAmount
              sourceToken := q.sourceToken
              destinationToken := q.destinationToken
              maxGas := q.maxGas
              averageGas := q.averageGas
              estimatedRefund := q.estimatedRefund
              fetchTime := q.fetchTime
              aggregator := q.aggregator
              aggType := q.aggType
              fee := q.fee
              gasMultiplier := q.gasMultiplier
              slippage := slippage
              savings := none
              gasEstimate := none
              gasEstimateWithRefund := none }
      | _, _ => aggIdTradeMap)
    []

/-- calcTokenAmount from util.ts: scale a minimal-unit amount by the token's
decimals, exactly. -/
def calcTokenAmount (value : ℚ) (decimals : ℕ) : ℚ := value / (10 : ℚ) ^ decimals

/-- calculateGasEstimateWithRefund from SwapsUtil.ts: the smaller of
maxGas - estimatedRefund and estimatedGas, with the source defaults. -/
def calculateGasEstimateWithRefund (maxGas : ℚ := 2500000) (estimatedRefund : ℚ := 0)
    (estimatedGas : ℚ := 0) : ℚ :=
  let maxGasMinusRefund := maxGas - estimatedRefund
  if maxGasMinusRefund < estimatedGas then maxGasMinusRefund else estimatedGas

/-- getMedian from SwapsUtil.ts: sort the sample exactly, return the middle
element for odd length and the mean of the two central elements for even
length; the empty sample throws (modelled as none). -/
def getMedian (values : List ℚ) : Option ℚ :=
  if values.length = 0 then none
  else
    let sorted := values.insertionSort (· ≤ ·)
    if values.length % 2 = 1 then
      some (sorted.getD ((values.length - 1) / 2) 0)
    else
      some ((sorted.getD (values.length / 2) 0 + sorted.getD (values.length / 2 - 1) 0) / 2)

/-- Per-aggregator evaluation output; the source stores the amounts as
toFixed(18) strings. -/
structure QuoteValues where
  aggregator : String
  ethFee : ℚ
  maxEthFee : ℚ
  ethValueOfTokens : ℚ
  overallValueOfQuote : ℚ
  metaMaskFeeInEth : ℚ
deriving DecidableEq, Repr

/-- BigNumber toFixed(18) with the default ROUND_HALF_UP mode: round to 18
decimal places, halves away from zero. -/
def toFixed18 (x : ℚ) : ℚ :=
  if 0 ≤ x then ((⌊x * 10 ^ 18 + 1 / 2⌋ : ℤ) : ℚ) / 10 ^ 18
  else -(((⌊-x * 10 ^ 18 + 1 / 2⌋ : ℤ) : ℚ) / 10 ^ 18)

/-- Configuration of the controller (defaultConfig values are used in the
witnesses). -/
structure SwapsConfig where
  maxGasLimit : ℕ
  pollCountLimit : ℕ
  fetchTokensThreshold : ℕ
  quotePollingInterval : ℕ
deriving DecidableEq, Repr

/-- The controller's session state (the SwapsState fields of the newest
variant) together with the private pollCount counter and the timer handle
(true when a poll timer is pending). -/
structure PollState where
  quotes : List (String × Quote)
  quoteValues : Option (List (String × QuoteValues))
  fetchParams : APIFetchQuotesParams
  fetchParamsMetaData : APIFetchQuotesMetadata
  topAggSavings : Option QuoteSavings
  tokens : Option (List SwapsToken)
  approvalTransaction : Option ApprovalTx
  quotesLastFetched : ℕ
  errorKey : Option SwapsError
  topAggId : Option String
  tokensLastFetched : ℕ
  customGasPrice : Option ℚ
  isInPolling : Bool
  isInFetch : Bool
  pollingCyclesLeft : ℕ
  pollCount : ℕ
  handle : Bool
deriving DecidableEq, Repr

/-- The defaultState literal built in the constructor.  Note that it contains
no customGasPrice entry (the field is optional in SwapsState); the value given
here is the initial undefined. -/
def defaultState (cfg : SwapsConfig) : PollState :=
  { quotes := []
    quoteValues := some []
    fetchParams :=
      { slippage := 0, sourceToken := "", sourceAmount := 0, destinationToken := ""
        walletAddress := "" }
    fetchParamsMetaData :=
      { sourceTokenInfo := { decimals := 0, address := "", symbol := "" }
        destinationTokenInfo := { decimals := 0, address := "", symbol := "" }
        accountBalance := "0x"
        destinationTokenConversionRate := none }
    topAggSavings := none
    tokens := none
    approvalTransaction := none
    quotesLastFetched := 0
    errorKey := none
    topAggId := none
    tokensLastFetched := 0
    customGasPrice := none
    isInPolling := false
    isInFetch := false
    pollingCyclesLeft := if cfg.pollCountLimit = 0 then 3 else cfg.pollCountLimit
    pollCount := 0
    handle := false }

/-- One evaluation pass of getBestQuoteAndQuotesValues over a single quote:
returns the stored QuoteValues entry (amounts rounded by toFixed(18)) and the
un-rounded overallValueOfQuote used for the best-quote comparison.  The
approval gas is read from the session state, as in the source. -/
def quoteEthValues (s : PollState) (usedGasPrice : ℚ) (q : Quote) : QuoteValues × ℚ :=
  let destinationTokenInfo := s.fetchParamsMetaData.destinationTokenInfo
  let tradeGasLimit :=
    match q.gasEstimateWithRefund with
    | some g => if g ≠ 0 then g else (if q.averageGas = 0 then MAX_GAS_LIMIT else q.averageGas)
    | none => if q.averageGas = 0 then MAX_GAS_LIMIT else q.averageGas
  let calculatedMaxGasLimit := (q.gasEstimate.getD q.averageGas) * (7 / 5)
  let tradeMaxGasLimit := if calculatedMaxGasLimit > q.maxGas then calculatedMaxGasLimit else q.maxGas
  let approvalGas := (s.approvalTransaction.bind (·.gas)).getD 0
  let totalGasLimit := tradeGasLimit + approvalGas
  let maxTotalGasLimit := tradeMaxGasLimit + approvalGas
  let totalGasInWei := totalGasLimit * usedGasPrice * 1000000000
  let maxTotalGasInWei := maxTotalGasLimit * usedGasPrice * 1000000000
  let totalInWei := totalGasInWei + q.trade.value
  let maxTotalInWei := maxTotalGasInWei + q.trade.value
  let weiFee := if q.sourceToken = ETH_SWAPS_TOKEN_ADDRESS then totalInWei - q.sourceAmount else totalInWei
  let maxWeiFee := if q.sourceToken = ETH_SWAPS_TOKEN_ADDRESS then maxTotalInWei - q.sourceAmount else maxTotalInWei
  let ethFee := calcTokenAmount weiFee 18
  let maxEthFee := calcTokenAmount maxWeiFee 18
  let decimalAdjustedDestinationAmount := calcTokenAmount q.destinationAmount destinationTokenInfo.decimals
  let tokenPercentageOfPreFeeDestAmount := (100 - q.fee) / 100
  let destinationAmountBeforeMetaMaskFee := decimalAdjustedDestinationAmount / tokenPercentageOfPreFeeDestAmount
  let metaMaskFeeInTokens := destinationAmountBeforeMetaMaskFee - decimalAdjustedDestinationAmount
  let conversionRate := s.fetchParamsMetaData.destinationTokenConversionRate.getD 1
  let ethValueOfTokens := decimalAdjustedDestinationAmount * conversionRate
  let overallValueOfQuote :=
    if q.destinationToken = ETH_SWAPS_TOKEN_ADDRESS then ethValueOfTokens - ethFee else ethValueOfTokens
  ({ aggregator := q.aggregator
     ethFee := toFixed18 ethFee
     maxEthFee := toFixed18 maxEthFee
     ethValueOfTokens := toFixed18 ethValueOfTokens
     overallValueOfQuote := toFixed18 overallValueOfQuote
     metaMaskFeeInEth := toFixed18 (metaMaskFeeInTokens * conversionRate) },
   overallValueOfQuote)

/-- getBestQuoteAndQuotesValues: iterate over the quote map's values, record a
QuoteValues entry per aggregator, and keep the aggregator whose overall value
strictly exceeds the running best (initialised to the empty id and 0). -/
def getBestQuoteAndQuotesValues (s : PollState) (usedGasPrice : ℚ)
    (quotes : List (String × Quote)) : String × List (String × QuoteValues) :=
  let r :=
    (quotes.map (·.2)).foldl
      (fun acc q =>
        let ev := quoteEthValues s usedGasPrice q
        let quoteValues := objSet acc.2 q.aggregator ev.1
        let best := if ev.2 > acc.1.2 then (q.aggregator, ev.2) else acc.1
        (best, quoteValues))
      (("", (0 : ℚ)), [])
  (r.1.1, r.2)

/-- Median entry over a collection of QuoteValues. -/
structure MedianQuoteValues where
  ethFee : ℚ
  ethValueOfTokens : ℚ
  metaMaskFeeInEth : ℚ
deriving DecidableEq, Repr

/-- Modelled from the spec: getMedianEthValueQuote is imported from SwapsUtil
but its definition is missing from the sources; following §4.5, the median is
computed over the fee and destination-value series independently (and over the
MetaMask-fee series for medianMetaMaskFee) with the getMedian odd/even rule,
failing on an empty collection as getMedian does. -/
def getMedianEthValueQuote (l : List QuoteValues) : Option MedianQuoteValues :=
  match getMedian (l.map (·.ethFee)), getMedian (l.map (·.ethValueOfTokens)),
      getMedian (l.map (·.metaMaskFeeInEth)) with
  | some f, some v, some m => some { ethFee := f, ethValueOfTokens := v, metaMaskFeeInEth := m }
  | _, _, _ => none

/-- calculateSavings of the newest variant: performance and fee savings of the
best quote against the medians, and total = performance + fee - metaMaskFee.
The lookups that would make the JavaScript crash (missing best entry) yield
none. -/
def calculateSavings (quote : Quote) (quoteValues : List (String × QuoteValues)) :
    Option QuoteSavings :=
  match getMedianEthValueQuote (quoteValues.map (·.2)), mapLookup quoteValues quote.aggregator with
  | some med, some bestTradeFee =>
      let performance := bestTradeFee.ethValueOfTokens - med.ethValueOfTokens
      let fee := med.ethFee - bestTradeFee.ethFee
      let metaMaskFee := bestTradeFee.metaMaskFeeInEth
      let total := performance + fee - metaMaskFee
      some { performance := performance, total := total, fee := fee
             medianMetaMaskFee := med.metaMaskFeeInEth }
  | _, _ => none

/-- stopPollingWithError: update isInPolling/isInFetch false, zero cycles left
and record the typed error. -/
def stopPollingWithError (s : PollState) (error : SwapsError) : PollState :=
  { s with isInPolling := false, isInFetch := false, pollingCyclesLeft := 0
           errorKey := some error }

/-- stopPollingAndResetState: abort in-flight transport, clear the timer,
force the poll counter past the limit, and merge the defaultState spread into
the state.  The spread keeps tokensLastFetched and tokens, sets errorKey to
undefined, and, because the defaultState literal has no customGasPrice entry,
leaves the previous customGasPrice in place. -/
def stopPollingAndResetState (cfg : SwapsConfig) (s : PollState) : PollState :=
  { defaultState cfg with
      isInPolling := false
      isInFetch := false
      tokensLastFetched := s.tokensLastFetched
      tokens := s.tokens
      errorKey := none
      customGasPrice := s.customGasPrice
      pollCount := cfg.pollCountLimit + 1
      handle := false }

/-- Environment of one fetch cycle: the outcome of the trades request, the
clock, the ERC-20 allowance read, and the (timeout-guarded) gas estimation
results; a none gas result is the null fallback of timedoutGasReturn. -/
structure FetchEnv where
  tradesResult : Except JsVal (List RawQuote)
  now : ℕ
  gasPrice : ℚ
  allowance : ℕ
  approvalGasResult : Option ℚ
  gasEstimateFor : String → Option ℚ

/-- getAllQuotesWithGasEstimates of the newest variant: every quote is kept
and annotated with its gas estimate and with
calculateGasEstimateWithRefund(maxGas, estimatedRefund, gas).  A null gas
turns the BigNumber arithmetic into NaN, which the evaluator's falsy check
then treats exactly like a missing value; NaN is modelled as none. -/
def getAllQuotesWithGasEstimates (env : FetchEnv) (trades : List (String × Quote)) :
    List (String × Quote) :=
  trades.map (fun p =>
    let gas := env.gasEstimateFor p.2.aggregator
    (p.1,
     { p.2 with
         gasEstimate := gas
         gasEstimateWithRefund :=
           gas.map (fun g => calculateGasEstimateWithRefund p.2.maxGas p.2.estimatedRefund g) }))

/-- The state commit at the end of a successful fetch cycle, guarded by
this.state.isInPolling: without the guard nothing is written. -/
def commitFetchResult (s : PollState) (quotes : List (String × Quote))
    (quotesLastFetched : ℕ) (approvalTransaction : Option ApprovalTx) (topAggId : String)
    (quoteValues : List (String × QuoteValues)) (savings : QuoteSavings) : PollState :=
  if s.isInPolling then
    { s with
        quotes := quotes
        quotesLastFetched := quotesLastFetched
        approvalTransaction := approvalTransaction
        topAggId := (mapLookup quotes topAggId).map (·.aggregator)
        topAggSavings := some savings
        isInFetch := false
        quoteValues := some quoteValues }
  else s

/-- The body of the try block of fetchAndSetQuotes (newest variant): fetch and
filter trades, fail with QUOTES_NOT_AVAILABLE_ERROR when the filtered result
is empty, run the first-cycle approval flow, annotate gas estimates, evaluate,
compute savings, and commit under the isInPolling guard.  The lookups on a
missing best quote, which crash the JavaScript with a TypeError inside
calculateSavings, surface as a thrown non-SwapsError value. -/
def fetchBody (env : FetchEnv) (s : PollState) : Except JsVal PollState :=
  match env.tradesResult with
  | .error e => .error e
  | .ok tradesResponse =>
    let quotes := fetchTradesInfo s.fetchParams.slippage tradesResponse
    match quotes with
    | [] => .error (JsVal.errorObj (SwapsError.msg .QUOTES_NOT_AVAILABLE_ERROR))
    | q0 :: _ =>
      let quotesLastFetched := env.now
      let apr : Except JsVal (Option ApprovalTx) :=
        if s.fetchParams.sourceToken ≠ ETH_SWAPS_TOKEN_ADDRESS then
          if env.allowance = 0 ∧ s.pollCount = 1 then
            match q0.2.approvalNeeded with
            | none => .error (JsVal.errorObj (SwapsError.msg .ERROR_FETCHING_QUOTES))
            | some a => .ok (some { a with gas := some (env.approvalGasResult.getD DEFAULT_ERC20_APPROVE_GAS) })
          else .ok none
        else .ok none
      match apr with
      | .error e => .error e
      | .ok approvalTransaction =>
        let quotes := getAllQuotesWithGasEstimates env quotes
        let usedGasPrice := s.customGasPrice.getD env.gasPrice
        let ev := getBestQuoteAndQuotesValues s usedGasPrice quotes
        match mapLookup quotes ev.1 with
        | none => .error JsVal.other
        | some best =>
          match calculateSavings best ev.2 with
          | none => .error JsVal.other
          | some savings =>
            .ok (commitFetchResult s quotes quotesLastFetched approvalTransaction ev.1 ev.2 savings)

/-- fetchAndSetQuotes: mark isInFetch, run the pipeline, and on any thrown
value classify it with caughtSwapsError, record it via stopPollingWithError
and then reset the whole session state.  The function is total: no exception
escapes. -/
def fetchAndSetQuotes (cfg : SwapsConfig) (env : FetchEnv) (s : PollState) : PollState :=
  let s1 := { s with isInFetch := true }
  match fetchBody env s1 with
  | .ok s2 => s2
  | .error e => stopPollingAndResetState cfg (stopPollingWithError s1 (caughtSwapsError e))

/-- pollForNewQuotes: bump the private poll counter; within the limit mark the
session polling, clear the timer, run fetchAndSetQuotes and re-arm the timer;
past the limit stop with QUOTES_EXPIRED_ERROR.  The boolean records whether
this cycle issued a network fetch. -/
def pollForNewQuotes (cfg : SwapsConfig) (env : FetchEnv) (s : PollState) :
    PollState × Bool :=
  let s1 := { s with pollCount := s.pollCount + 1 }
  if s1.pollCount < cfg.pollCountLimit + 1 then
    let s2 := { s1 with isInPolling := true
                        pollingCyclesLeft := cfg.pollCountLimit - s1.pollCount
                        handle := false }
    let s3 := fetchAndSetQuotes cfg env s2
    ({ s3 with handle := true }, true)
  else
    (stopPollingWithError s1 SwapsError.QUOTES_EXPIRED_ERROR, false)

/-- Session state of the older controller variant whose ordering guard claim
C1 cites: the fields the guarded commit writes, plus the
indexOfNewestCallInFlight counter. -/
structure V1Session where
  indexOfNewestCallInFlight : ℕ
  quotes : List (String × Quote)
  topAggId : Option String
  quotesLastFetched : ℕ
deriving DecidableEq, Repr

/-- Payload a completing cycle would commit. -/
structure V1CommitData where
  quotes : List (String × Quote)
  topAggId : Option String
  quotesLastFetched : ℕ
deriving DecidableEq, Repr

/-- Outcome of a completing fetch pipeline under the ordering guard. -/
inductive FetchOutcome where
  | committed
  | fetchOrderConflict
deriving DecidableEq, Repr

/-- Dispatch of a fetch cycle: the cycle is tagged with
indexOfNewestCallInFlight + 1 and the counter is advanced to that tag. -/
def dispatchFetch (s : V1Session) : V1Session × ℕ :=
  let indexOfCurrentCall := s.indexOfNewestCallInFlight + 1
  ({ s with indexOfNewestCallInFlight := indexOfCurrentCall }, indexOfCurrentCall)

/-- Completion of a fetch cycle's pipeline: if a newer call has been
dispatched meanwhile the guard throws SWAPS_FETCH_ORDER_CONFLICT and nothing
is written; otherwise the result is committed. -/
def completeFetch (s : V1Session) (indexOfCurrentCall : ℕ) (r : V1CommitData) :
    V1Session × FetchOutcome :=
  if s.indexOfNewestCallInFlight ≠ indexOfCurrentCall then (s, .fetchOrderConflict)
  else
    ({ s with quotes := r.quotes, topAggId := r.topAggId
              quotesLastFetched := r.quotesLastFetched },
     .committed)

/-! Concrete sample data used by witnesses and counterexamples. -/

/-- The defaultConfig built in the constructor. -/
def defaultConfig : SwapsConfig :=
  { maxGasLimit := 2500000, pollCountLimit := 3, fetchTokensThreshold := 86400000
    quotePollingInterval := 50000 }

/-- A sample trade transaction. -/
def sampleTrade : TradeTx :=
  { toAddr := "0xdef1", fromAddr := "0xwallet", data := "0xdata", value := 0, gas := none }

/-- A sample quote whose overall value evaluates negative: zero destination
amount, a positive gas fee, and the native asset as destination. -/
def quoteNeg : Quote :=
  { trade := sampleTrade, approvalNeeded := none, sourceAmount := 0
    destinationAmount := 0, sourceToken := "0xsrc"
    destinationToken := ETH_SWAPS_TOKEN_ADDRESS, maxGas := 200, averageGas := 100
    estimatedRefund := 0, fetchTime := 0, aggregator := "agg1", aggType := "AGG"
    fee := 1, gasMultiplier := 1, slippage := 3, savings := none, gasEstimate := none
    gasEstimateWithRefund := none }

/-- A sample quote whose overall value evaluates to 1 (strictly positive):
one whole destination token at 18 decimals, non-native destination. -/
def quotePos : Quote :=
  { quoteNeg with
      destinationToken := "0xdst"
      destinationAmount := ((10 : ℚ) ^ 18)
      aggregator := "agg2" }

/-- Evaluation context: default state with an 18-decimals destination token. -/
def sEval : PollState :=
  { defaultState defaultConfig with
      fetchParamsMetaData :=
        { sourceTokenInfo := { decimals := 18, address := "0xsrc", symbol := "SRC" }
          destinationTokenInfo := { decimals := 18, address := "0xdst", symbol := "DST" }
          accountBalance := "0x0"
          destinationTokenConversionRate := none } }

/-- A sample QuoteValues entry for the savings witness. -/
def sampleQuoteValues : QuoteValues :=
  { aggregator := "agg1", ethFee := 1, maxEthFee := 2, ethValueOfTokens := 10
    overallValueOfQuote := 9, metaMaskFeeInEth := 3 }

/-- A sample polling session state mid-session. -/
def pollingState : PollState :=
  { defaultState defaultConfig with
      isInPolling := true, pollingCyclesLeft := 2, pollCount := 1
      customGasPrice := some 5, tokens := some [], tokensLastFetched := 7
      quotesLastFetched := 99 }

/-- A fetch environment whose trades request succeeds with an empty response. -/
def envEmptyResponse : FetchEnv :=
  { tradesResult := .ok [], now := 123, gasPrice := 1, allowance := 1
    approvalGasResult := none, gasEstimateFor := fun _ => none }

/-- A dispatched older session: the newest call in flight is number 2. -/
def v1Sample : V1Session :=
  { indexOfNewestCallInFlight := 2, quotes := [], topAggId := none, quotesLastFetched := 0 }

/-- A result payload an older cycle might try to commit. -/
def v1Payload : V1CommitData :=
  { quotes := [("agg1", quoteNeg)], topAggId := some "agg1", quotesLastFetched := 55 }

/-! Helper lemmas. -/

/-- getMedian succeeds on every non-empty sample. -/
theorem getMedian_isSome (l : List ℚ) (h : l ≠ []) : ∃ m, getMedian l = some m := by
  unfold getMedian
  have hlen : l.length ≠ 0 := by simpa using h
  by_cases hodd : l.length % 2 = 1 <;> simp [hlen, hodd]

/-! Claim theorems. -/

/-- C7: calculateGasEstimateWithRefund returns the minimum of
maxGas - estimatedRefund and estimatedGas, exactly, with the defaults
maxGas = 2500000, estimatedRefund = 0, estimatedGas = 0; in particular
calculateGasEstimateWithRefund 10 5 6 = 5. -/
theorem calculateGasEstimateWithRefund_is_min :
    (∀ maxGas estimatedRefund estimatedGas : ℚ,
        calculateGasEstimateWithRefund maxGas estimatedRefund estimatedGas
          = min (maxGas - estimatedRefund) estimatedGas)
    ∧ calculateGasEstimateWithRefund 10 5 6 = 5
    ∧ calculateGasEstimateWithRefund 2500000 0 0 = 0 := by
  refine ⟨fun a b c => ?_, by norm_num [calculateGasEstimateWithRefund], by
    norm_num [calculateGasEstimateWithRefund]⟩
  unfold calculateGasEstimateWithRefund
  rcases lt_trichotomy (a - b) c with h | h | h
  · simp [h, min_def, le_of_lt h]
  · simp [h, min_def]
  · simp [not_lt.mpr (le_of_lt h), min_def, not_le.mpr h]

/-- C4: getMedian returns the exact middle element of the sorted sample for
odd lengths (an element of the sample), the exact mean of the two central
sorted elements for even lengths, fails on the empty sample, and evaluates to
5 on 1..9 and 5.5 on 1..10. -/
theorem getMedian_spec (l : List ℚ) (h : l ≠ []) :
    getMedian ([] : List ℚ) = none
    ∧ (l.length % 2 = 1 →
        getMedian l = some ((l.insertionSort (· ≤ ·)).getD ((l.length - 1) / 2) 0)
        ∧ ∀ m, getMedian l = some m → m ∈ l)
    ∧ (l.length % 2 = 0 →
        getMedian l = some (((l.insertionSort (· ≤ ·)).getD (l.length / 2) 0
          + (l.insertionSort (· ≤ ·)).getD (l.length / 2 - 1) 0) / 2))
    ∧ getMedian [1, 2, 3, 4, 5, 6, 7, 8, 9] = some 5
    ∧ getMedian [1, 2, 3, 4, 5, 6, 7, 8, 9, 10] = some (11 / 2) := by
  have hlen : l.length ≠ 0 := by simpa using h
  refine ⟨rfl, fun hodd => ⟨by simp [getMedian, hlen, hodd], fun m hm => ?_⟩,
    fun heven => ?_, by norm_num [getMedian, List.insertionSort, List.orderedInsert],
    by norm_num [getMedian, List.insertionSort, List.orderedInsert]⟩
  · have hidx : (l.length - 1) / 2 < (l.insertionSort (· ≤ ·)).length := by
      rw [List.length_insertionSort]
      omega
    have hval : getMedian l = some ((l.insertionSort (· ≤ ·)).getD ((l.length - 1) / 2) 0) := by
      simp [getMedian, hlen, hodd]
    have hmem : (l.insertionSort (· ≤ ·)).getD ((l.length - 1) / 2) 0 ∈ l := by
      rw [List.getD_eq_getElem _ _ hidx]
      exact (List.perm_insertionSort _ l).subset (List.getElem_mem hidx)
    rw [hval] at hm
    obtain rfl : (l.insertionSort (· ≤ ·)).getD ((l.length - 1) / 2) 0 = m :=
      Option.some_inj.mp hm
    exact hmem
  · have hodd : ¬l.length % 2 = 1 := by omega
    simp [getMedian, hlen, hodd]

/-- Witness for C4 at the concrete sample [1, 2, 3]. -/
theorem getMedian_spec_witness :
    ([(1 : ℚ), 2, 3] ≠ []) ∧ getMedian [(1 : ℚ), 2, 3] = some 2 := by
  have h := ((getMedian_spec [(1 : ℚ), 2, 3] (by simp)).2.1 (by norm_num)).1
  refine ⟨by simp, ?_⟩
  rw [h]
  norm_num [List.insertionSort, List.orderedInsert]

/-- C1: under the ordering guard, completing a cycle whose sequence number is
lower than the newest dispatched call discards the result with
SWAPS_FETCH_ORDER_CONFLICT and writes nothing; any completion that changes
session state or commits carries exactly the newest sequence number; and a
dispatch tags the new cycle with a strictly larger sequence number, advancing
the newest-in-flight counter to it. -/
theorem fetch_order_conflict_guard (s : V1Session) (seq : ℕ) (r : V1CommitData)
    (hseq : seq < s.indexOfNewestCallInFlight) :
    completeFetch s seq r = (s, FetchOutcome.fetchOrderConflict)
    ∧ (∀ seq' r', (completeFetch s seq' r').1 ≠ s ∨ (completeFetch s seq' r').2 = .committed →
        seq' = s.indexOfNewestCallInFlight)
    ∧ (∀ t : V1Session, (dispatchFetch t).2 = t.indexOfNewestCallInFlight + 1
        ∧ (dispatchFetch t).1.indexOfNewestCallInFlight = (dispatchFetch t).2) := by
  refine ⟨by simp [completeFetch, Nat.ne_of_lt' hseq], fun seq' r' hchange => ?_,
    fun t => ⟨rfl, rfl⟩⟩
  by_contra hne
  have hguard : s.indexOfNewestCallInFlight ≠ seq' := fun hc => hne hc.symm
  have hcf : completeFetch s seq' r' = (s, .fetchOrderConflict) := by
    simp [completeFetch, hguard]
  rw [hcf] at hchange
  rcases hchange with hch | hch
  · exact hch rfl
  · simp at hch

/-- Witness for C1: cycle 1 completing while cycle 2 is the newest in flight
is discarded with the conflict error. -/
theorem fetch_order_conflict_guard_witness :
    1 < v1Sample.indexOfNewestCallInFlight
    ∧ completeFetch v1Sample 1 v1Payload = (v1Sample, FetchOutcome.fetchOrderConflict) := by
  have h := fetch_order_conflict_guard v1Sample 1 v1Payload (by simp [v1Sample])
  exact ⟨by simp [v1Sample], h.1⟩

/-- C3: the savings breakdown of calculateSavings satisfies
total = performance + fee - metaMaskFee exactly, with
performance = bestValue - median of the value series and
fee = median of the fee series - bestFee. -/
theorem calculateSavings_decomposition (quote : Quote)
    (quoteValues : List (String × QuoteValues)) (bestTradeFee : QuoteValues)
    (hne : quoteValues ≠ [])
    (hbest : mapLookup quoteValues quote.aggregator = some bestTradeFee) :
    ∃ savings, calculateSavings quote quoteValues = some savings
      ∧ savings.performance = bestTradeFee.ethValueOfTokens
          - (getMedian ((quoteValues.map (·.2)).map (·.ethValueOfTokens))).getD 0
      ∧ savings.fee = (getMedian ((quoteValues.map (·.2)).map (·.ethFee))).getD 0
          - bestTradeFee.ethFee
      ∧ savings.total = savings.performance + savings.fee - bestTradeFee.metaMaskFeeInEth := by
  have hmapne : quoteValues.map (·.2) ≠ [] := by simpa using hne
  obtain ⟨f, hf⟩ := getMedian_isSome ((quoteValues.map (·.2)).map (·.ethFee)) (by simpa using hmapne)
  obtain ⟨v, hv⟩ := getMedian_isSome ((quoteValues.map (·.2)).map (·.ethValueOfTokens))
    (by simpa using hmapne)
  obtain ⟨m, hm⟩ := getMedian_isSome ((quoteValues.map (·.2)).map (·.metaMaskFeeInEth))
    (by simpa using hmapne)
  have hmed : getMedianEthValueQuote (quoteValues.map (·.2))
      = some { ethFee := f, ethValueOfTokens := v, metaMaskFeeInEth := m } := by
    unfold getMedianEthValueQuote
    rw [hf, hv, hm]
  have hcs : calculateSavings quote quoteValues
      = some { total := bestTradeFee.ethValueOfTokens - v + (f - bestTradeFee.ethFee)
                 - bestTradeFee.metaMaskFeeInEth
               performance := bestTradeFee.ethValueOfTokens - v
               fee := f - bestTradeFee.ethFee
               medianMetaMaskFee := m } := by
    unfold calculateSavings
    rw [hmed, hbest]
  rw [List.map_map] at hf hv
  exact ⟨_, hcs, by simp [hv], by simp [hf], by simp⟩

/-- Witness for C3 at a one-entry quote-values map. -/
theorem calculateSavings_decomposition_witness :
    ([("agg1", sampleQuoteValues)] ≠ ([] : List (String × QuoteValues)))
    ∧ mapLookup [("agg1", sampleQuoteValues)] quoteNeg.aggregator = some sampleQuoteValues
    ∧ ∃ savings, calculateSavings quoteNeg [("agg1", sampleQuoteValues)] = some savings
        ∧ savings.total = savings.performance + savings.fee - sampleQuoteValues.metaMaskFeeInEth := by
  have hlook : mapLookup [("agg1", sampleQuoteValues)] quoteNeg.aggregator
      = some sampleQuoteValues := by
    simp [mapLookup, quoteNeg, sampleQuoteValues]
  have h := calculateSavings_decomposition quoteNeg [("agg1", sampleQuoteValues)]
    sampleQuoteValues (by simp) hlook
  obtain ⟨sv, h1, _, _, h4⟩ := h
  exact ⟨by simp, hlook, sv, h1, h4⟩

/-- C5: a polled cycle arriving after pollCountLimit cycles have run stops the
session with QUOTES_EXPIRED_ERROR: isInPolling false, pollingCyclesLeft 0,
errorKey quotes-expired, and no network fetch is issued. -/
theorem pollForNewQuotes_expiry (cfg : SwapsConfig) (env : FetchEnv) (s : PollState)
    (hlimit : cfg.pollCountLimit ≤ s.pollCount) :
    pollForNewQuotes cfg env s
      = (stopPollingWithError { s with pollCount := s.pollCount + 1 }
          SwapsError.QUOTES_EXPIRED_ERROR, false)
    ∧ (pollForNewQuotes cfg env s).1.isInPolling = false
    ∧ (pollForNewQuotes cfg env s).1.pollingCyclesLeft = 0
    ∧ (pollForNewQuotes cfg env s).1.errorKey = some SwapsError.QUOTES_EXPIRED_ERROR
    ∧ (pollForNewQuotes cfg env s).2 = false := by
  have hcond : ¬(s.pollCount + 1 < cfg.pollCountLimit + 1) := by omega
  refine ⟨?_, ?_, ?_, ?_, ?_⟩ <;> simp [pollForNewQuotes, hcond, stopPollingWithError]

/-- Witness for C5: with the default limit 3 and three polled cycles done, the
fourth cycle errors out with quotes-expired and fetches nothing. -/
theorem pollForNewQuotes_expiry_witness :
    defaultConfig.pollCountLimit ≤ ({ pollingState with pollCount := 3 } : PollState).pollCount
    ∧ (pollForNewQuotes defaultConfig envEmptyResponse
        { pollingState with pollCount := 3 }).1.errorKey
        = some SwapsError.QUOTES_EXPIRED_ERROR
    ∧ (pollForNewQuotes defaultConfig envEmptyResponse
        { pollingState with pollCount := 3 }).2 = false := by
  have h := pollForNewQuotes_expiry defaultConfig envEmptyResponse
    { pollingState with pollCount := 3 } (by simp [defaultConfig, pollingState])
  exact ⟨by simp [defaultConfig, pollingState], h.2.2.2.1, h.2.2.2.2⟩

/-- C6 evaluation: a concrete failing cycle (the trades request returns an
empty array, so the pipeline throws quotes-not-available) is caught: the
orchestrator returns normally, stops polling, leaves no timer armed — but the
final state's errorKey is cleared to undefined, because the catch handler
first records the typed error through stopPollingWithError and then
immediately calls stopPollingAndResetState, which overwrites errorKey. -/
theorem fetchAndSetQuotes_failure_wipes_errorKey :
    fetchAndSetQuotes defaultConfig envEmptyResponse pollingState
      = stopPollingAndResetState defaultConfig
          (stopPollingWithError { pollingState with isInFetch := true }
            SwapsError.ERROR_FETCHING_QUOTES)
    ∧ (fetchAndSetQuotes defaultConfig envEmptyResponse pollingState).errorKey = none
    ∧ (fetchAndSetQuotes defaultConfig envEmptyResponse pollingState).isInPolling = false
    ∧ (fetchAndSetQuotes defaultConfig envEmptyResponse pollingState).handle = false := by
  have hbody : fetchBody envEmptyResponse { pollingState with isInFetch := true }
      = .error (JsVal.errorObj (SwapsError.msg .QUOTES_NOT_AVAILABLE_ERROR)) := rfl
  refine ⟨?_, ?_, ?_, ?_⟩ <;>
    simp [fetchAndSetQuotes, hbody, caughtSwapsError, stopPollingAndResetState,
      stopPollingWithError]

/-- Counterexample to C9: stopPollingAndResetState leaves customGasPrice at
its previous value, which is neither the tokens list nor tokensLastFetched
and differs from its default. -/
theorem stopPollingAndResetState_keeps_customGasPrice :
    (stopPollingAndResetState defaultConfig pollingState).customGasPrice = some 5
    ∧ (defaultState defaultConfig).customGasPrice = none
    ∧ (stopPollingAndResetState defaultConfig pollingState).customGasPrice
        ≠ (defaultState defaultConfig).customGasPrice := by
  exact ⟨rfl, rfl, by simp [stopPollingAndResetState, defaultState, pollingState, defaultConfig]⟩

/-- C9 (amended): stopPollingAndResetState cancels the pending timer, forces
the poll counter past pollCountLimit, resets the session fields to their
defaults with errorKey cleared — leaving tokens, tokensLastFetched and
customGasPrice unchanged — and afterwards an in-flight cycle's completion
commits nothing and a further poll cycle issues no fetch. -/
theorem stopPollingAndResetState_frame (cfg : SwapsConfig) (s : PollState) :
    (stopPollingAndResetState cfg s).handle = false
    ∧ (stopPollingAndResetState cfg s).pollCount = cfg.pollCountLimit + 1
    ∧ cfg.pollCountLimit < (stopPollingAndResetState cfg s).pollCount
    ∧ (stopPollingAndResetState cfg s).tokens = s.tokens
    ∧ (stopPollingAndResetState cfg s).tokensLastFetched = s.tokensLastFetched
    ∧ (stopPollingAndResetState cfg s).customGasPrice = s.customGasPrice
    ∧ (stopPollingAndResetState cfg s).quotes = (defaultState cfg).quotes
    ∧ (stopPollingAndResetState cfg s).quoteValues = (defaultState cfg).quoteValues
    ∧ (stopPollingAndResetState cfg s).fetchParams = (defaultState cfg).fetchParams
    ∧ (stopPollingAndResetState cfg s).fetchParamsMetaData
        = (defaultState cfg).fetchParamsMetaData
    ∧ (stopPollingAndResetState cfg s).topAggSavings = (defaultState cfg).topAggSavings
    ∧ (stopPollingAndResetState cfg s).approvalTransaction
        = (defaultState cfg).approvalTransaction
    ∧ (stopPollingAndResetState cfg s).quotesLastFetched
        = (defaultState cfg).quotesLastFetched
    ∧ (stopPollingAndResetState cfg s).errorKey = none
    ∧ (stopPollingAndResetState cfg s).topAggId = (defaultState cfg).topAggId
    ∧ (stopPollingAndResetState cfg s).isInPolling = false
    ∧ (stopPollingAndResetState cfg s).isInFetch = false
    ∧ (stopPollingAndResetState cfg s).pollingCyclesLeft
        = (defaultState cfg).pollingCyclesLeft
    ∧ (∀ quotes qlf apr top qv sv,
        commitFetchResult (stopPollingAndResetState cfg s) quotes qlf apr top qv sv
          = stopPollingAndResetState cfg s)
    ∧ ∀ env, (pollForNewQuotes cfg env (stopPollingAndResetState cfg s)).2 = false := by
  have hcond : ¬(cfg.pollCountLimit + 1 + 1 < cfg.pollCountLimit + 1) := by omega
  refine ⟨rfl, rfl, by simp [stopPollingAndResetState], rfl, rfl, rfl, rfl, rfl, rfl, rfl,
    rfl, rfl, rfl, rfl, rfl, rfl, rfl, rfl, ?_, ?_⟩
  · intro quotes qlf apr top qv sv
    simp [commitFetchResult, stopPollingAndResetState]
  · intro env
    simp [pollForNewQuotes, stopPollingAndResetState, hcond]

/-- Lookup succeeds exactly on the keys of the association list. -/
theorem mapLookup_isSome_iff {β : Type} (m : List (String × β)) (k : String) :
    (mapLookup m k).isSome ↔ k ∈ m.map (·.1) := by
  induction m with
  | nil => simp [mapLookup]
  | cons p t ih =>
    by_cases h : p.1 = k
    · simp [mapLookup, List.find?_cons, h]
    · have hne : ¬k = p.1 := fun hc => h hc.symm
      rw [show mapLookup (p :: t) k = mapLookup t k by simp [mapLookup, List.find?_cons, h]]
      rw [ih]
      simp [hne]

/-- The keys after a JavaScript-object spread update: unchanged when the key
was present, the new key appended otherwise. -/
theorem keys_objSet {β : Type} (m : List (String × β)) (k : String) (v : β) :
    (objSet m k v).map (·.1)
      = if m.any (fun p => p.1 = k) then m.map (·.1) else m.map (·.1) ++ [k] := by
  unfold objSet
  by_cases h : m.any (fun p => p.1 = k)
  · simp only [h, if_true, List.map_map]
    refine List.map_congr_left (fun p _ => ?_)
    by_cases hp : p.1 = k <;> simp [hp, Function.comp]
  · simp [h]

/-- Key membership after a spread update. -/
theorem mem_keys_objSet {β : Type} (m : List (String × β)) (k k' : String) (v : β) :
    k' ∈ (objSet m k v).map (·.1) ↔ k' = k ∨ k' ∈ m.map (·.1) := by
  rw [keys_objSet]
  by_cases h : m.any (fun p => p.1 = k)
  · obtain ⟨p, hp, hpk⟩ := List.any_eq_true.mp h
    have hkmem : k ∈ m.map (·.1) := by
      refine List.mem_map.mpr ⟨p, hp, ?_⟩
      simpa using hpk
    simp only [h, if_true]
    exact ⟨Or.inr, fun hh => hh.elim (fun e => e ▸ hkmem) id⟩
  · simp [h, or_comm]

/-- Key membership in the fetchTradesInfo accumulator, generalized over the
starting map. -/
theorem mem_keys_fetchTradesInfo_aux (slippage : ℚ) (k : String) :
    ∀ (resp : List RawQuote) (acc : List (String × Quote)),
      k ∈ ((resp.foldl
        (fun aggIdTradeMap q =>
          match q.trade, q.error with
          | some t, none =>
              objSet aggIdTradeMap q.aggregator
                { trade := constructTrade t q.maxGas
                  approvalNeeded := q.approvalNeeded.map constructApproval
                  sourceAmount := q.sourceAmount
                  destinationAmount := q.destinationAmount
                  sourceToken := q.sourceToken
                  destinationToken := q.destinationToken
                  maxGas := q.maxGas
                  averageGas := q.averageGas
                  estimatedRefund := q.estimatedRefund
                  fetchTime := q.fetchTime
                  aggregator := q.aggregator
                  aggType := q.aggType
                  fee := q.fee
                  gasMultiplier := q.gasMultiplier
                  slippage := slippage
                  savings := none
                  gasEstimate := none
                  gasEstimateWithRefund := none }
          | _, _ => aggIdTradeMap) acc).map (·.1))
        ↔ k ∈ acc.map (·.1)
          ∨ ∃ q ∈ resp, q.aggregator = k ∧ q.trade.isSome ∧ q.error = none := by
  intro resp
  induction resp with
  | nil => simp
  | cons q t ih =>
    intro acc
    match htr : q.trade, herr : q.error with
    | some tx, none =>
        rw [List.foldl_cons]
        simp only [htr, herr]
        rw [ih]
        rw [mem_keys_objSet]
        constructor
        · rintro ((he | hacc) | ⟨q', hq', hk', ht', he'⟩)
          · exact Or.inr ⟨q, List.mem_cons_self q t, he.symm, by simp [htr], herr⟩
          · exact Or.inl hacc
          · exact Or.inr ⟨q', List.mem_cons_of_mem q hq', hk', ht', he'⟩
        · rintro (hacc | ⟨q', hq', hk', ht', he'⟩)
          · exact Or.inl (Or.inr hacc)
          · rcases List.mem_cons.mp hq' with rfl | hq't
            · exact Or.inl (Or.inl hk'.symm)
            · exact Or.inr ⟨q', hq't, hk', ht', he'⟩
    | some tx, some e =>
        rw [List.foldl_cons]
        simp only [htr, herr]
        rw [ih]
        constructor
        · rintro (hacc | ⟨q', hq', hk', ht', he'⟩)
          · exact Or.inl hacc
          · exact Or.inr ⟨q', List.mem_cons_of_mem q hq', hk', ht', he'⟩
        · rintro (hacc | ⟨q', hq', hk', ht', he'⟩)
          · exact Or.inl hacc
          · rcases List.mem_cons.mp hq' with rfl | hq't
            · rw [herr] at he'
              exact absurd he' (by simp)
            · exact Or.inr ⟨q', hq't, hk', ht', he'⟩
    | none, herr2 =>
        rw [List.foldl_cons]
        simp only [htr]
        rw [ih]
        constructor
        · rintro (hacc | ⟨q', hq', hk', ht', he'⟩)
          · exact Or.inl hacc
          · exact Or.inr ⟨q', List.mem_cons_of_mem q hq', hk', ht', he'⟩
        · rintro (hacc | ⟨q', hq', hk', ht', he'⟩)
          · exact Or.inl hacc
          · rcases List.mem_cons.mp hq' with rfl | hq't
            · rw [htr] at ht'
              exact absurd ht' (by simp)
            · exact Or.inr ⟨q', hq't, hk', ht', he'⟩

/-- A raw API quote that survives the filter. -/
def rawGood : RawQuote :=
  { trade := some sampleTrade, approvalNeeded := none, sourceAmount := 0
    destinationAmount := 0, error := none, sourceToken := "0xsrc"
    destinationToken := "0xdst", maxGas := 200, averageGas := 100, estimatedRefund := 0
    fetchTime := 0, aggregator := "agg1", aggType := "AGG", fee := 1, gasMultiplier := 1 }

/-- A raw API quote with an error set, which the filter must drop. -/
def rawBad : RawQuote := { rawGood with aggregator := "agg2", error := some "err" }

/-- A fetch environment returning one good and one errored raw quote. -/
def envGood : FetchEnv := { envEmptyResponse with tradesResult := .ok [rawGood, rawBad] }

/-- C8: the map returned by fetchTradesInfo has exactly the aggregator ids of
the response quotes that carry a trade and no error; and when the filtered
result is empty the pipeline fails with the quotes-not-available typed error,
which the orchestrator catches and turns into a state transition instead of a
crash. -/
theorem fetchTradesInfo_filter_spec (slippage : ℚ) (resp : List RawQuote) (s : PollState)
    (env : FetchEnv) (hresp : env.tradesResult = .ok resp)
    (hslip : s.fetchParams.slippage = slippage) :
    (∀ k, (mapLookup (fetchTradesInfo slippage resp) k).isSome
        ↔ ∃ q ∈ resp, q.aggregator = k ∧ q.trade.isSome ∧ q.error = none)
    ∧ (fetchTradesInfo slippage resp = [] →
        fetchBody env { s with isInFetch := true }
          = .error (JsVal.errorObj (SwapsError.msg .QUOTES_NOT_AVAILABLE_ERROR))
        ∧ ∀ cfg, fetchAndSetQuotes cfg env s
            = stopPollingAndResetState cfg
                (stopPollingWithError { s with isInFetch := true }
                  SwapsError.ERROR_FETCHING_QUOTES)) := by
  constructor
  · intro k
    rw [mapLookup_isSome_iff]
    have haux := mem_keys_fetchTradesInfo_aux slippage k resp []
    unfold fetchTradesInfo
    simpa using haux
  · intro hempty
    have hbody : fetchBody env { s with isInFetch := true }
        = .error (JsVal.errorObj (SwapsError.msg .QUOTES_NOT_AVAILABLE_ERROR)) := by
      unfold fetchBody
      rw [hresp]
      simp [hslip, hempty]
    exact ⟨hbody, fun cfg => by simp [fetchAndSetQuotes, hbody, caughtSwapsError]⟩

/-- Witness for C8: with one surviving and one errored raw quote, the filter
keeps exactly the surviving aggregator. -/
theorem fetchTradesInfo_filter_spec_witness :
    envGood.tradesResult = .ok [rawGood, rawBad]
    ∧ (mapLookup (fetchTradesInfo 0 [rawGood, rawBad]) "agg1").isSome = true
    ∧ (mapLookup (fetchTradesInfo 0 [rawGood, rawBad]) "agg2").isSome = false := by
  have h := (fetchTradesInfo_filter_spec 0 [rawGood, rawBad] sEval envGood rfl rfl).1
  refine ⟨rfl, ?_, ?_⟩
  · exact (h "agg1").mpr ⟨rawGood, by simp, rfl, by simp [rawGood], rfl⟩
  · have hnot : ¬(mapLookup (fetchTradesInfo 0 [rawGood, rawBad]) "agg2").isSome := by
      intro hs
      obtain ⟨q, hq, hk, ht, he⟩ := (h "agg2").mp hs
      rcases List.mem_cons.mp hq with rfl | hq'
      · exact absurd hk (by simp [rawGood])
      · rcases List.mem_cons.mp hq' with rfl | hq''
        · rw [show rawBad.error = some "err" from rfl] at he
          exact absurd he (by simp)
        · simp at hq''
    simpa using hnot

/-- Projection of the getBestQuoteAndQuotesValues fold onto the best-quote
accumulator alone. -/
def bestOfQuotes (s : PollState) (usedGasPrice : ℚ) (l : List Quote) (b : String × ℚ) :
    String × ℚ :=
  l.foldl
    (fun acc q =>
      if (quoteEthValues s usedGasPrice q).2 > acc.2
      then (q.aggregator, (quoteEthValues s usedGasPrice q).2) else acc)
    b

/-- The combined fold of getBestQuoteAndQuotesValues computes bestOfQuotes in
its first component. -/
theorem bestFold_decompose (s : PollState) (gp : ℚ) :
    ∀ (l : List Quote) (b : String × ℚ) (qv : List (String × QuoteValues)),
      (l.foldl
        (fun acc q =>
          let ev := quoteEthValues s gp q
          let quoteValues := objSet acc.2 q.aggregator ev.1
          let best := if ev.2 > acc.1.2 then (q.aggregator, ev.2) else acc.1
          (best, quoteValues)) (b, qv)).1
      = bestOfQuotes s gp l b := by
  intro l
  induction l with
  | nil => intro b qv; rfl
  | cons q t ih =>
    intro b qv
    rw [List.foldl_cons]
    rw [show bestOfQuotes s gp (q :: t) b
        = bestOfQuotes s gp t
            (if (quoteEthValues s gp q).2 > b.2
             then (q.aggregator, (quoteEthValues s gp q).2) else b) from by
      unfold bestOfQuotes
      rw [List.foldl_cons]]
    exact ih _ _

/-- The best-quote accumulator's id is either the initial id or the
aggregator id of a processed quote. -/
theorem bestOfQuotes_fst_or_mem (s : PollState) (gp : ℚ) :
    ∀ (l : List Quote) (b : String × ℚ),
      (bestOfQuotes s gp l b).1 = b.1 ∨ (bestOfQuotes s gp l b).1 ∈ l.map (·.aggregator) := by
  intro l
  induction l with
  | nil => intro b; exact Or.inl rfl
  | cons q t ih =>
    intro b
    rw [show bestOfQuotes s gp (q :: t) b
        = bestOfQuotes s gp t
            (if (quoteEthValues s gp q).2 > b.2
             then (q.aggregator, (quoteEthValues s gp q).2) else b) from by
      unfold bestOfQuotes
      rw [List.foldl_cons]]
    by_cases hc : (quoteEthValues s gp q).2 > b.2
    · rw [if_pos hc]
      rcases ih (q.aggregator, (quoteEthValues s gp q).2) with h | h
      · rw [h]
        exact Or.inr (by simp)
      · exact Or.inr (List.mem_cons_of_mem _ h)
    · rw [if_neg hc]
      rcases ih b with h | h
      · exact Or.inl h
      · exact Or.inr (List.mem_cons_of_mem _ h)

/-- With only non-positive overall values, the best-quote accumulator stays at
its zero initialisation: no quote is ever promoted. -/
theorem bestOfQuotes_nonpos (s : PollState) (gp : ℚ) :
    ∀ (l : List Quote), (∀ q ∈ l, (quoteEthValues s gp q).2 ≤ 0) →
      bestOfQuotes s gp l ("", 0) = ("", 0) := by
  intro l
  induction l with
  | nil => intro _; rfl
  | cons q t ih =>
    intro h
    have hq : ¬((quoteEthValues s gp q).2 > (0 : ℚ)) :=
      not_lt.mpr (h q (List.mem_cons_self q t))
    rw [show bestOfQuotes s gp (q :: t) ("", 0)
        = bestOfQuotes s gp t
            (if (quoteEthValues s gp q).2 > (("", (0 : ℚ)) : String × ℚ).2
             then (q.aggregator, (quoteEthValues s gp q).2) else ("", 0)) from by
      unfold bestOfQuotes
      rw [List.foldl_cons]]
    rw [if_neg hq]
    exact ih (fun q' hq' => h q' (List.mem_cons_of_mem _ hq'))

/-- With at least one strictly positive overall value, the selected best id is
the aggregator id of one of the quotes. -/
theorem bestOfQuotes_pos_mem (s : PollState) (gp : ℚ) :
    ∀ (l : List Quote), (∃ q ∈ l, 0 < (quoteEthValues s gp q).2) →
      (bestOfQuotes s gp l ("", 0)).1 ∈ l.map (·.aggregator) := by
  intro l
  induction l with
  | nil => rintro ⟨q, hq, _⟩; simp at hq
  | cons q t ih =>
    rintro ⟨q', hq', hpos⟩
    rw [show bestOfQuotes s gp (q :: t) ("", 0)
        = bestOfQuotes s gp t
            (if (quoteEthValues s gp q).2 > (("", (0 : ℚ)) : String × ℚ).2
             then (q.aggregator, (quoteEthValues s gp q).2) else ("", 0)) from by
      unfold bestOfQuotes
      rw [List.foldl_cons]]
    by_cases hc : (quoteEthValues s gp q).2 > (0 : ℚ)
    · rw [if_pos hc]
      rcases bestOfQuotes_fst_or_mem s gp t (q.aggregator, (quoteEthValues s gp q).2)
        with h | h
      · rw [h]
        simp
      · exact List.mem_cons_of_mem _ h
    · rw [if_neg hc]
      rcases List.mem_cons.mp hq' with rfl | hq't
      · exact absurd hpos hc
      · exact List.mem_cons_of_mem _ (ih ⟨q', hq't, hpos⟩)

/-- C10: when every quote's overall value is non-positive, the best-quote
selection (accumulator initialised to 0, promotion only on strict increase)
returns the empty string, which is not a key of the quote map, and the
subsequent quotes lookup on that id finds nothing. -/
theorem getBestQuoteAndQuotesValues_all_nonpositive (s : PollState) (gp : ℚ)
    (quotes : List (String × Quote))
    (hval : ∀ p ∈ quotes, (quoteEthValues s gp p.2).2 ≤ 0)
    (hkey : ∀ p ∈ quotes, p.1 ≠ "") :
    (getBestQuoteAndQuotesValues s gp quotes).1 = ""
    ∧ (getBestQuoteAndQuotesValues s gp quotes).1 ∉ quotes.map (·.1)
    ∧ mapLookup quotes (getBestQuoteAndQuotesValues s gp quotes).1 = none := by
  have hd := bestFold_decompose s gp (quotes.map fun p => p.2) ("", (0 : ℚ)) []
  have hfst : (getBestQuoteAndQuotesValues s gp quotes).1
      = (bestOfQuotes s gp (quotes.map fun p => p.2) ("", 0)).1 := by
    exact congrArg Prod.fst hd
  have h1 : (getBestQuoteAndQuotesValues s gp quotes).1 = "" := by
    rw [hfst]
    rw [bestOfQuotes_nonpos s gp (quotes.map fun p => p.2)
      (fun q hq => by
        obtain ⟨p, hp, rfl⟩ := List.mem_map.mp hq
        exact hval p hp)]
  have h2 : (getBestQuoteAndQuotesValues s gp quotes).1 ∉ quotes.map (·.1) := by
    rw [h1]
    intro hmem
    obtain ⟨p, hp, hp1⟩ := List.mem_map.mp hmem
    exact hkey p hp hp1
  refine ⟨h1, h2, ?_⟩
  have := (mapLookup_isSome_iff quotes (getBestQuoteAndQuotesValues s gp quotes).1)
  rcases hopt : mapLookup quotes (getBestQuoteAndQuotesValues s gp quotes).1 with _ | v
  · rfl
  · exact absurd (this.mp (by rw [hopt]; rfl)) h2

/-- Witness for C10 at the concrete negative-value quote. -/
theorem getBestQuoteAndQuotesValues_all_nonpositive_witness :
    (quoteEthValues sEval 1 quoteNeg).2 ≤ 0
    ∧ (getBestQuoteAndQuotesValues sEval 1 [("agg1", quoteNeg)]).1 = ""
    ∧ mapLookup [("agg1", quoteNeg)] (getBestQuoteAndQuotesValues sEval 1 [("agg1", quoteNeg)]).1
        = none := by
  have hval : (quoteEthValues sEval 1 quoteNeg).2 = -(1 / 10 ^ 7) := by
    norm_num [quoteEthValues, sEval, quoteNeg, defaultState, defaultConfig, calcTokenAmount,
      MAX_GAS_LIMIT, ETH_SWAPS_TOKEN_ADDRESS, sampleTrade]
  have hle : (quoteEthValues sEval 1 quoteNeg).2 ≤ 0 := by rw [hval]; norm_num
  have h := getBestQuoteAndQuotesValues_all_nonpositive sEval 1 [("agg1", quoteNeg)]
    (by rintro p hp; rcases List.mem_cons.mp hp with rfl | hp'
        · exact hle
        · simp at hp')
    (by rintro p hp; rcases List.mem_cons.mp hp with rfl | hp'
        · simp
        · simp at hp')
  exact ⟨hle, h.1, h.2.2⟩

/-- Ascending-aggregator-id iteration order over a quote map, the order the
spec fixes for reproducible evaluation. -/
def sortByAggId (l : List (String × Quote)) : List (String × Quote) :=
  l.insertionSort (fun a b => a.1 ≤ b.1)

instance : DecidableRel (fun a b : String × Quote => a.1 ≤ b.1) :=
  fun a b => inferInstanceAs (Decidable (a.1 ≤ b.1))

instance : IsTotal (String × Quote) (fun a b => a.1 ≤ b.1) :=
  ⟨fun a b => le_total a.1 b.1⟩

instance : IsTrans (String × Quote) (fun a b => a.1 ≤ b.1) :=
  ⟨fun _ _ _ hab hbc => le_trans hab hbc⟩

instance : IsAntisymm (String × Quote) (fun a b => a.1 < b.1) :=
  ⟨fun _ _ h1 h2 => absurd (lt_trans h1 h2) (lt_irrefl _)⟩

/-- A list sorted by keys whose keys are distinct is strictly sorted by
keys. -/
theorem sorted_strict_of_nodup_keys :
    ∀ (l : List (String × Quote)),
      List.Pairwise (fun a b : String × Quote => a.1 ≤ b.1) l →
      (l.map (·.1)).Nodup →
      List.Pairwise (fun a b : String × Quote => a.1 < b.1) l := by
  intro l
  induction l with
  | nil => intro _ _; exact List.Pairwise.nil
  | cons p t ih =>
    intro hs hn
    rw [List.pairwise_cons] at hs ⊢
    rw [List.map_cons, List.nodup_cons] at hn
    refine ⟨fun b hb => lt_of_le_of_ne (hs.1 b hb) ?_, ih hs.2 hn.2⟩
    intro he
    exact hn.1 (by rw [he]; exact List.mem_map.mpr ⟨b, hb, rfl⟩)

/-- Two permutations of a quote map with distinct keys sort identically by
ascending aggregator id. -/
theorem sortByAggId_eq_of_perm (l1 l2 : List (String × Quote)) (hperm : l1.Perm l2)
    (hnodup : (l2.map (·.1)).Nodup) : sortByAggId l1 = sortByAggId l2 := by
  have hp : (sortByAggId l1).Perm (sortByAggId l2) :=
    (List.perm_insertionSort _ l1).trans (hperm.trans (List.perm_insertionSort _ l2).symm)
  have hs1 := List.sorted_insertionSort (fun a b : String × Quote => a.1 ≤ b.1) l1
  have hs2 := List.sorted_insertionSort (fun a b : String × Quote => a.1 ≤ b.1) l2
  have hn2 : ((sortByAggId l2).map (·.1)).Nodup :=
    (((List.perm_insertionSort _ l2).map (·.1)).nodup_iff).mpr hnodup
  have hn1 : ((sortByAggId l1).map (·.1)).Nodup :=
    ((hp.map (·.1)).nodup_iff).mpr hn2
  exact List.eq_of_perm_of_sorted hp
    (sorted_strict_of_nodup_keys _ hs1 hn1)
    (sorted_strict_of_nodup_keys _ hs2 hn2)

/-- C2 (amended): over a quote map containing a quote of strictly positive
overall value, the evaluation iterated in ascending aggregator-id order
returns a best aggregator id that is a key of the map, and its result does
not depend on the order in which the quotes were supplied. -/
theorem getBestQuoteAndQuotesValues_sorted_spec (s : PollState) (gp : ℚ)
    (quotes : List (String × Quote))
    (hkeys : ∀ p ∈ quotes, p.1 = p.2.aggregator)
    (hnodup : (quotes.map (·.1)).Nodup)
    (hpos : ∃ p ∈ quotes, 0 < (quoteEthValues s gp p.2).2) :
    (getBestQuoteAndQuotesValues s gp (sortByAggId quotes)).1 ∈ quotes.map (·.1)
    ∧ ∀ quotes' : List (String × Quote), quotes'.Perm quotes →
        getBestQuoteAndQuotesValues s gp (sortByAggId quotes')
          = getBestQuoteAndQuotesValues s gp (sortByAggId quotes) := by
  constructor
  · have hd := bestFold_decompose s gp ((sortByAggId quotes).map fun p => p.2) ("", (0 : ℚ)) []
    have hfst : (getBestQuoteAndQuotesValues s gp (sortByAggId quotes)).1
        = (bestOfQuotes s gp ((sortByAggId quotes).map fun p => p.2) ("", 0)).1 := by
      exact congrArg Prod.fst hd
    rw [hfst]
    obtain ⟨p, hp, hppos⟩ := hpos
    have hp' : p ∈ sortByAggId quotes := (List.perm_insertionSort _ quotes).mem_iff.mpr hp
    have hmem := bestOfQuotes_pos_mem s gp ((sortByAggId quotes).map fun p => p.2)
      ⟨p.2, List.mem_map.mpr ⟨p, hp', rfl⟩, hppos⟩
    rw [List.map_map] at hmem
    obtain ⟨p', hp'mem, hp'agg⟩ := List.mem_map.mp hmem
    have hp'q : p' ∈ quotes := (List.perm_insertionSort _ quotes).subset hp'mem
    rw [← hp'agg]
    exact List.mem_map.mpr ⟨p', hp'q, hkeys p' hp'q⟩
  · intro quotes' hperm
    rw [sortByAggId_eq_of_perm quotes' quotes hperm hnodup]

/-- Counterexample to C2 as stated: a non-empty quote set all of whose overall
values are non-positive makes the evaluation return an id (the empty string)
that is not a key of the input set. -/
theorem getBestQuoteAndQuotesValues_not_in_keys :
    ([("agg1", quoteNeg)] : List (String × Quote)) ≠ []
    ∧ (getBestQuoteAndQuotesValues sEval 1 [("agg1", quoteNeg)]).1
        ∉ ([("agg1", quoteNeg)] : List (String × Quote)).map (·.1) := by
  have hval : (quoteEthValues sEval 1 quoteNeg).2 = -(1 / 10 ^ 7) := by
    norm_num [quoteEthValues, sEval, quoteNeg, defaultState, defaultConfig, calcTokenAmount,
      MAX_GAS_LIMIT, ETH_SWAPS_TOKEN_ADDRESS, sampleTrade]
  have hd := bestFold_decompose sEval 1 ([("agg1", quoteNeg)].map fun p => p.2) ("", (0 : ℚ)) []
  have hfst : (getBestQuoteAndQuotesValues sEval 1 [("agg1", quoteNeg)]).1
      = (bestOfQuotes sEval 1 ([("agg1", quoteNeg)].map fun p => p.2) ("", 0)).1 := by
    exact congrArg Prod.fst hd
  have hzero : (getBestQuoteAndQuotesValues sEval 1 [("agg1", quoteNeg)]).1 = "" := by
    rw [hfst]
    rw [bestOfQuotes_nonpos sEval 1 ([("agg1", quoteNeg)].map fun p => p.2)
      (by rintro q hq
          rcases List.mem_map.mp hq with ⟨p, hp, rfl⟩
          rcases List.mem_cons.mp hp with rfl | hp'
          · rw [hval]; norm_num
          · simp at hp')]
  rw [hzero]
  exact ⟨by simp, by simp⟩

/-- Witness for C2 (amended) at a single strictly positive quote. -/
theorem getBestQuoteAndQuotesValues_sorted_spec_witness :
    0 < (quoteEthValues sEval 1 quotePos).2
    ∧ (getBestQuoteAndQuotesValues sEval 1 (sortByAggId [("agg2", quotePos)])).1
        ∈ ([("agg2", quotePos)] : List (String × Quote)).map (·.1) := by
  have hne1 : ("0xdst" : String) ≠ ETH_SWAPS_TOKEN_ADDRESS := by decide
  have hpos : (quoteEthValues sEval 1 quotePos).2 = 1 := by
    norm_num [quoteEthValues, sEval, quotePos, quoteNeg, defaultState, defaultConfig,
      calcTokenAmount, MAX_GAS_LIMIT, hne1, sampleTrade]
  have h := getBestQuoteAndQuotesValues_sorted_spec sEval 1 [("agg2", quotePos)]
    (by rintro p hp
        rcases List.mem_cons.mp hp with rfl | hp'
        · simp [quotePos, quoteNeg]
        · simp at hp')
    (by simp)
    ⟨("agg2", quotePos), by simp, by rw [hpos]; norm_num⟩
  exact ⟨by rw [hpos]; norm_num, h.1⟩

end Swaps
